import Mathlib

/-!
Verification of the byte-board-service authentication core.

The Go source is shallowly embedded:
* Go strings are `List Char` (`GoStr`); Go `len` on strings is the UTF-8
  byte length, modelled with `Char.utf8Size`.
* Times are Unix seconds as `Int` (the jwt library marshals `NumericDate`
  at second precision).
* The external jwt wire codec (base64url + JSON of the three segments) is
  abstracted: a token is the structured value `Token`; middleware that
  receives token *strings* is parameterised by an abstract decoder
  `dec : GoStr → Option Token` standing for the library's segment parser.
* HMAC is modelled symbolically as a perfect MAC: a signature is the
  triple (algorithm, key, signed claims), so two signatures agree exactly
  when algorithm, key and signed content agree.
* bcrypt is modelled symbolically as a perfect salted hash: the stored
  hash determines (salt, cost, password), and comparison recomputes and
  compares, so it succeeds exactly on the original password.
-/

instance {ε α : Type} [DecidableEq ε] [DecidableEq α] : DecidableEq (Except ε α) :=
  fun x y =>
    match x, y with
    | .ok a, .ok b =>
      if h : a = b then .isTrue (by rw [h]) else .isFalse (fun hh => h (Except.ok.inj hh))
    | .error a, .error b =>
      if h : a = b then .isTrue (by rw [h]) else .isFalse (fun hh => h (Except.error.inj hh))
    | .ok _, .error _ => .isFalse (fun hh => Except.noConfusion hh)
    | .error _, .ok _ => .isFalse (fun hh => Except.noConfusion hh)

/-- Go strings, as lists of characters. -/
abbrev GoStr := List Char

/-- The number of bytes of the UTF-8 encoding of one character. -/
def utf8CharSize (c : Char) : Nat :=
  if c.toNat ≤ 0x7f then 1
  else if c.toNat ≤ 0x7ff then 2
  else if c.toNat ≤ 0xffff then 3
  else 4

/-- UTF-8 byte length of a Go string (`len(s)` in Go). -/
def utf8Len (s : GoStr) : Nat := (s.map utf8CharSize).sum

/-- `unicode.IsSpace` from Go's standard library: the White_Space code points. -/
def goIsSpace (c : Char) : Bool :=
  let n := c.toNat
  n = 9 || n = 10 || n = 11 || n = 12 || n = 13 || n = 32 ||
  n = 0x85 || n = 0xa0 || n = 0x1680 || (0x2000 ≤ n && n ≤ 0x200a) ||
  n = 0x2028 || n = 0x2029 || n = 0x202f || n = 0x205f || n = 0x3000

/-- `strings.TrimSpace`: drop leading and trailing White_Space characters. -/
def goTrimSpace (s : GoStr) : GoStr :=
  ((s.dropWhile goIsSpace).reverse.dropWhile goIsSpace).reverse

/-- Split a string at its first space character, if any: the pair of the part
before and the part after the first `' '`.  `strings.SplitN(s, " ", 2)` returns
`[s]` when this is `none` and `[a, b]` when this is `some (a, b)`. -/
def breakFirstSpace : GoStr → Option (GoStr × GoStr)
  | [] => none
  | c :: cs =>
    if c = ' ' then some ([], cs)
    else (breakFirstSpace cs).map (fun p => (c :: p.1, p.2))

/-! ## Token codec (src/internal/auth/jwt.go with the golang-jwt/jwt/v5 library) -/

/-- JWT signing algorithms that can be advertised in a token header. -/
inductive Alg where
  | HS256 | HS384 | HS512 | RS256 | NoneAlg
  deriving DecidableEq, Repr

/-- The algorithms the library represents by `*jwt.SigningMethodHMAC`
(the type the keyfunc in jwt.go accepts). -/
def Alg.isHMAC : Alg → Bool
  | .HS256 | .HS384 | .HS512 => true
  | _ => false

/-- The `Claims` struct of jwt.go: username, role, plus the registered
claims jwt.go populates (subject, issued-at, not-before, expires-at),
times in Unix seconds. -/
structure Claims where
  Username : GoStr
  Role : GoStr
  Subject : GoStr
  IssuedAt : Int
  NotBefore : Int
  ExpiresAt : Int
  deriving DecidableEq, Repr

/-- A symbolic HMAC signature: computed over the header (which fixes the
algorithm) and the claims segment, keyed by the secret.  Perfect-MAC
idealisation: signatures are equal exactly when all three agree. -/
structure Sig where
  alg : Alg
  key : GoStr
  signedClaims : Claims
  deriving DecidableEq, Repr

/-- Compute the symbolic HMAC of the (header, claims) pair under `key`. -/
def hmacSign (a : Alg) (key : GoStr) (c : Claims) : Sig := ⟨a, key, c⟩

/-- A structured JWT: the algorithm advertised in the header segment, the
claims segment, and the signature segment. -/
structure Token where
  alg : Alg
  claims : Claims
  sig : Sig
  deriving DecidableEq, Repr

/-- `JWTConfig` of jwt.go. -/
structure JWTConfig where
  SecretKey : GoStr
  ExpirationHours : Int
  deriving DecidableEq, Repr

/-- `TokenProvider` of jwt.go (holds the config). -/
structure TokenProvider where
  config : JWTConfig
  deriving DecidableEq, Repr

/-- Errors produced inside `jwt.ParseWithClaims` (golang-jwt/jwt/v5). -/
inductive JwtError where
  | unverifiable   -- keyfunc returned an error (non-HMAC method)
  | sigInvalid     -- signature verification failed
  | expired        -- claims validation: now is not before exp
  | notValidYet    -- claims validation: now is before nbf
  deriving DecidableEq, Repr

/-- `jwt.ParseWithClaims` with the keyfunc of jwt.go: run the keyfunc
(which rejects any non-HMAC signing method), verify the signature with the
advertised method and the returned secret, then validate the registered
claims (exp, then nbf, zero leeway; iat is not validated by default). -/
def parseWithClaims (secret : GoStr) (t : Token) (now : Int) :
    Except JwtError Claims :=
  if ¬ t.alg.isHMAC then .error .unverifiable
  else if t.sig ≠ hmacSign t.alg secret t.claims then .error .sigInvalid
  else if ¬ now < t.claims.ExpiresAt then .error .expired
  else if now < t.claims.NotBefore then .error .notValidYet
  else .ok t.claims

/-- The error values of jwt.go (`ErrExpiredToken`, `jwt.ErrSignatureInvalid`
as returned by `ValidateToken`, the `ErrInvalidToken`-wrapping errors, the
`fmt.Errorf`-wrapped parse failure of `ParseToken`, `ErrMissingClaims`). -/
inductive AuthErr where
  | expiredToken
  | signatureInvalid
  | invalidToken
  | parseFailed
  | missingClaims
  deriving DecidableEq, Repr

/-- `TokenProvider.CreateToken`: claims with issued-at = not-before = now,
expires-at = now + ExpirationHours hours, subject = username, signed with
HMAC-SHA-512 under the configured secret. -/
def TokenProvider.CreateToken (tp : TokenProvider) (username role : GoStr)
    (now : Int) : Token :=
  let expirationTime := now + tp.config.ExpirationHours * 3600
  let claims : Claims :=
    { Username := username, Role := role, Subject := username,
      IssuedAt := now, NotBefore := now, ExpiresAt := expirationTime }
  { alg := .HS512, claims := claims,
    sig := hmacSign .HS512 tp.config.SecretKey claims }

/-- `TokenProvider.ValidateToken`: parse and validate, mapping the library
errors as jwt.go does (`ErrTokenExpired ↦ ErrExpiredToken`,
signature failure ↦ `jwt.ErrSignatureInvalid`, anything else wrapped into
`ErrInvalidToken`). -/
def TokenProvider.ValidateToken (tp : TokenProvider) (t : Token) (now : Int) :
    Except AuthErr Unit :=
  match parseWithClaims tp.config.SecretKey t now with
  | .error .expired => .error .expiredToken
  | .error .sigInvalid => .error .signatureInvalid
  | .error _ => .error .invalidToken
  | .ok _ => .ok ()

/-- `TokenProvider.ParseToken`: parse and validate as above (any library
error is wrapped by `fmt.Errorf`), then reject claims whose username is
empty with `ErrMissingClaims`. -/
def TokenProvider.ParseToken (tp : TokenProvider) (t : Token) (now : Int) :
    Except AuthErr Claims :=
  match parseWithClaims tp.config.SecretKey t now with
  | .error _ => .error .parseFailed
  | .ok claims =>
    if claims.Username = [] then .error .missingClaims
    else .ok claims

/-! ## Authentication middleware (the middleware package) -/

/-- The request context as observed through the middleware's two context
keys: the value stored under `UsernameContextKey` and under
`RoleContextKey`, each absent (`none`) or a string. -/
structure Ctx where
  username : Option GoStr
  role : Option GoStr
  deriving DecidableEq, Repr

/-- A fresh request context: neither key present. -/
def Ctx.empty : Ctx := ⟨none, none⟩

/-- What a middleware layer does with a request: write an error response
(`http.Error` with a status code and message) and stop, or invoke the next
handler with a (possibly updated) request context. -/
inductive MwResult where
  | reject (status : Nat) (body : String)
  | proceed (ctx : Ctx)
  deriving DecidableEq, Repr

/-- `extractBearerToken`: split on the first space only (`strings.SplitN`
with limit 2); the part before it must be exactly "Bearer"; the trimmed
remainder must be non-empty and is the token.  All failures return
`model.ErrInvalidToken`. -/
def extractBearerToken (authHeader : GoStr) : Except Unit GoStr :=
  match breakFirstSpace authHeader with
  | none => .error ()
  | some parts =>
    if parts.1 ≠ "Bearer".toList then .error ()
    else
      let token := goTrimSpace parts.2
      if token = [] then .error () else .ok token

/-- `ValidateToken` applied to a token string: the wire decoder `dec`
stands for the library's segment parsing; an undecodable string is a
malformed-token error, wrapped into `ErrInvalidToken` by jwt.go. -/
def validateTokenStr (tp : TokenProvider) (dec : GoStr → Option Token)
    (s : GoStr) (now : Int) : Except AuthErr Unit :=
  match dec s with
  | none => .error .invalidToken
  | some t => tp.ValidateToken t now

/-- `ParseToken` applied to a token string, via the wire decoder `dec`. -/
def parseTokenStr (tp : TokenProvider) (dec : GoStr → Option Token)
    (s : GoStr) (now : Int) : Except AuthErr Claims :=
  match dec s with
  | none => .error .parseFailed
  | some t => tp.ParseToken t now

/-- `AuthMiddleware.JWTAuth` (Required mode): reject with 401 and the
corresponding message if the header is missing, extraction fails,
validation fails, or claim parsing fails; otherwise attach username and
role to the context and call the next handler. -/
def JWTAuth (tp : TokenProvider) (dec : GoStr → Option Token)
    (authHeader : GoStr) (base : Ctx) (now : Int) : MwResult :=
  if authHeader = [] then
    .reject 401 "Unauthorized: Invalid token format"
  else
    match extractBearerToken authHeader with
    | .error _ => .reject 401 "Unauthorized: Invalid token format"
    | .ok tokenString =>
      match validateTokenStr tp dec tokenString now with
      | .error _ => .reject 401 "Unauthorized: Invalid or expired token"
      | .ok _ =>
        match parseTokenStr tp dec tokenString now with
        | .error _ => .reject 401 "Unauthorized: Invalid token claims"
        | .ok claims =>
          .proceed { base with username := some claims.Username,
                               role := some claims.Role }

/-- `AuthMiddleware.OptionalJWTAuth` (Optional mode): on any failure at any
step, call the next handler with the context unchanged; on full success,
attach username and role. -/
def OptionalJWTAuth (tp : TokenProvider) (dec : GoStr → Option Token)
    (authHeader : GoStr) (base : Ctx) (now : Int) : MwResult :=
  if authHeader = [] then .proceed base
  else
    match extractBearerToken authHeader with
    | .error _ => .proceed base
    | .ok tokenString =>
      match validateTokenStr tp dec tokenString now with
      | .error _ => .proceed base
      | .ok _ =>
        match parseTokenStr tp dec tokenString now with
        | .error _ => .proceed base
        | .ok claims =>
          .proceed { base with username := some claims.Username,
                               role := some claims.Role }

/-- `GetUsername`: the type-asserted context lookup; an absent value (or a
non-string, which the middleware never stores) reads as `""`. -/
def GetUsername (ctx : Ctx) : GoStr := ctx.username.getD []

/-- `GetRole`: the type-asserted context lookup for the role key. -/
def GetRole (ctx : Ctx) : GoStr := ctx.role.getD []

/-- `RequireRole(requiredRole)`: read the role from the context; an empty
read is rejected 403 "No role information", a mismatching role 403
"Insufficient permissions", otherwise the next handler runs with the
context unchanged. -/
def RequireRole (requiredRole : GoStr) (ctx : Ctx) : MwResult :=
  let role := GetRole ctx
  if role = [] then .reject 403 "Forbidden: No role information"
  else if role ≠ requiredRole then .reject 403 "Forbidden: Insufficient permissions"
  else .proceed ctx

/-! ## Credential hasher (the auth password file) -/

/-- A bcrypt hash value, symbolically: self-describing (salt and cost are
embedded) and, as a perfect hash, determined by and determining the
hashed password. -/
structure BHash where
  salt : Nat
  cost : Nat
  password : GoStr
  deriving DecidableEq, Repr

/-- `bcrypt.GenerateFromPassword` at a given salt (the salt models the
randomness drawn inside the library). -/
def bcryptGenerate (salt : Nat) (password : GoStr) (cost : Nat) : BHash :=
  ⟨salt, cost, password⟩

/-- `bcrypt.CompareHashAndPassword`: recompute with the embedded salt and
cost and compare; nil (here `true`) exactly when the passwords agree. -/
def bcryptCompare (hash : BHash) (password : GoStr) : Bool :=
  hash.password = password

/-- The `DefaultCost` constant. -/
def DefaultCost : Nat := 10

/-- The password-error values of model/errors.go used here. -/
inductive PwErr where
  | passwordEmpty
  | passwordTooLong
  deriving DecidableEq, Repr

/-- `HashPassword`: reject the empty password and passwords over 72 bytes,
then hash at `DefaultCost` (with the salt drawn by the library). -/
def HashPassword (salt : Nat) (password : GoStr) : Except PwErr BHash :=
  if password = [] then .error .passwordEmpty
  else if utf8Len password > 72 then .error .passwordTooLong
  else .ok (bcryptGenerate salt password DefaultCost)

/-- `CheckPassword`: true exactly when the comparison returns no error. -/
def CheckPassword (password : GoStr) (hashedPassword : BHash) : Bool :=
  bcryptCompare hashedPassword password

/-! ## Auth service (src/internal/service/auth_service.go) -/

/-- The `User` model row as Login uses it. -/
structure User where
  Username : GoStr
  HashedPassword : BHash
  Role : GoStr
  deriving DecidableEq, Repr

/-- `AuthService.Login`: look the user up by username (the repository
lookup is the abstract `getUserByUsername`), verify the password, and mint
a token; both authentication failures return the error message
"invalid credentials". -/
def Login (tp : TokenProvider) (getUserByUsername : GoStr → Option User)
    (username password : GoStr) (now : Int) : Except String Token :=
  match getUserByUsername username with
  | none => .error "invalid credentials"
  | some user =>
    if ¬ CheckPassword password user.HashedPassword then
      .error "invalid credentials"
    else
      .ok (tp.CreateToken user.Username user.Role now)

/-! ## Concrete instances used by witnesses and counterexamples -/

/-- A concrete provider: secret "s", one-hour lifetime. -/
def tpC : TokenProvider := ⟨⟨"s".toList, 1⟩⟩

/-- Concrete claims for a user "bob" valid on [0, 10). -/
def clC : Claims :=
  { Username := "bob".toList, Role := "user".toList, Subject := "bob".toList,
    IssuedAt := 0, NotBefore := 0, ExpiresAt := 10 }

/-- A token advertising HS256, correctly HMAC-signed with the shared secret. -/
def tokHS256 : Token := ⟨.HS256, clC, hmacSign .HS256 "s".toList clC⟩

/-- A token advertising RS256 (outside the HMAC family). -/
def tokRS256 : Token := ⟨.RS256, clC, hmacSign .RS256 "s".toList clC⟩

/-- A concrete wire decoder: the string "t" decodes to a freshly created
token for alice, everything else is undecodable. -/
def decC : GoStr → Option Token :=
  fun s => if s = "t".toList then some (tpC.CreateToken "alice".toList "user".toList 0) else none

/-- A concrete user row whose password is "right". -/
def userC : User :=
  { Username := "u".toList, HashedPassword := ⟨0, 10, "right".toList⟩, Role := "user".toList }

/-- A concrete repository lookup knowing only `userC`. -/
def lookupC : GoStr → Option User :=
  fun s => if s = "u".toList then some userC else none

/-! ## Helper lemmas -/

lemma parseWithClaims_createToken (tp : TokenProvider) (u r : GoStr) (now t : Int)
    (h1 : ¬ t < now) (h2 : t < now + tp.config.ExpirationHours * 3600) :
    parseWithClaims tp.config.SecretKey (tp.CreateToken u r now) t =
      .ok { Username := u, Role := r, Subject := u, IssuedAt := now,
            NotBefore := now, ExpiresAt := now + tp.config.ExpirationHours * 3600 } := by
  simp [parseWithClaims, TokenProvider.CreateToken, hmacSign, Alg.isHMAC, h1, h2]

lemma parseWithClaims_createToken_expired (tp : TokenProvider) (u r : GoStr) (now t : Int)
    (h2 : ¬ t < now + tp.config.ExpirationHours * 3600) :
    parseWithClaims tp.config.SecretKey (tp.CreateToken u r now) t = .error .expired := by
  simp [parseWithClaims, TokenProvider.CreateToken, hmacSign, Alg.isHMAC, h2]

lemma breakFirstSpace_append (a b : GoStr) (ha : ' ' ∉ a) :
    breakFirstSpace (a ++ ' ' :: b) = some (a, b) := by
  induction a with
  | nil => simp [breakFirstSpace]
  | cons c cs ih =>
    simp only [List.mem_cons, not_or] at ha
    have hc : c ≠ ' ' := fun h => ha.1 h.symm
    simp [breakFirstSpace, hc, ih ha.2]

lemma breakFirstSpace_sound (s a b : GoStr) (h : breakFirstSpace s = some (a, b)) :
    s = a ++ ' ' :: b ∧ ' ' ∉ a := by
  induction s generalizing a b with
  | nil => simp [breakFirstSpace] at h
  | cons c cs ih =>
    by_cases hc : c = ' '
    · subst hc
      simp only [breakFirstSpace, if_pos rfl, Option.some.injEq, Prod.mk.injEq] at h
      obtain ⟨rfl, rfl⟩ := h
      simp
    · simp only [breakFirstSpace, if_neg hc, Option.map_eq_some'] at h
      obtain ⟨⟨a', b'⟩, hp, he⟩ := h
      simp only [Prod.mk.injEq] at he
      obtain ⟨rfl, rfl⟩ := he
      obtain ⟨rfl, hna⟩ := ih a' b' hp
      exact ⟨rfl, by simp [hna, Ne.symm hc]⟩

lemma extractBearerToken_eq_of_break (s a b : GoStr)
    (hb : breakFirstSpace s = some (a, b)) :
    extractBearerToken s =
      if a ≠ "Bearer".toList then .error ()
      else if goTrimSpace b = [] then .error () else .ok (goTrimSpace b) := by
  unfold extractBearerToken
  rw [hb]

lemma extractBearerToken_ok (s t : GoStr) :
    extractBearerToken s = .ok t ↔
      ∃ rest, s = "Bearer".toList ++ ' ' :: rest ∧
        goTrimSpace rest ≠ [] ∧ t = goTrimSpace rest := by
  constructor
  · intro h
    cases hb : breakFirstSpace s with
    | none => unfold extractBearerToken at h; rw [hb] at h; exact absurd h (by simp)
    | some p =>
      obtain ⟨a, b⟩ := p
      rw [extractBearerToken_eq_of_break s a b hb] at h
      by_cases h1 : a = "Bearer".toList
      · rw [if_neg (by simp [h1])] at h
        by_cases h2 : goTrimSpace b = []
        · rw [if_pos h2] at h; exact absurd h (by simp)
        · rw [if_neg h2] at h
          obtain ⟨hs, _⟩ := breakFirstSpace_sound s a b hb
          exact ⟨b, by rw [hs, h1], h2, (Except.ok.inj h).symm⟩
      · rw [if_pos h1] at h; exact absurd h (by simp)
  · rintro ⟨rest, rfl, hne, rfl⟩
    rw [extractBearerToken_eq_of_break _ _ _ (breakFirstSpace_append _ _ (by decide))]
    simp [hne]

lemma utf8CharSize_pos (c : Char) : 0 < utf8CharSize c := by
  unfold utf8CharSize
  split
  · omega
  · split
    · omega
    · split <;> omega

lemma utf8Len_eq_zero (pw : GoStr) : utf8Len pw = 0 ↔ pw = [] := by
  cases pw with
  | nil => simp [utf8Len]
  | cons c cs =>
    simp only [utf8Len, List.map_cons, List.sum_cons]
    constructor
    · intro h
      exact absurd h (by have := utf8CharSize_pos c; omega)
    · intro h; exact absurd h (by simp)

/-! ## Claim theorems -/

/-- C1, counterexample: for the empty username the claim fails — the
created token validates, but `ParseToken` rejects it with the
missing-claims error instead of returning claims with that username. -/
theorem token_roundtrip_empty_username_cex :
    tpC.ValidateToken (tpC.CreateToken [] "user".toList 0) 0 = .ok () ∧
    tpC.ParseToken (tpC.CreateToken [] "user".toList 0) 0 = .error .missingClaims := by
  decide

/-- C1, amended: for every configuration with a positive lifetime, every
NONEMPTY username, every role and every creation time `now`, validating
`CreateToken username role now` at `now` succeeds and parsing it returns
claims carrying exactly that username and role. -/
theorem token_roundtrip_amended (tp : TokenProvider) (u r : GoStr) (now : Int)
    (hL : 1 ≤ tp.config.ExpirationHours) (hu : u ≠ []) :
    tp.ValidateToken (tp.CreateToken u r now) now = .ok () ∧
    ∃ cl, tp.ParseToken (tp.CreateToken u r now) now = .ok cl ∧
      cl.Username = u ∧ cl.Role = r := by
  have h1 : ¬ now < now := by omega
  have h2 : now < now + tp.config.ExpirationHours * 3600 := by omega
  have hp := parseWithClaims_createToken tp u r now now h1 h2
  constructor
  · unfold TokenProvider.ValidateToken
    rw [hp]
  · refine ⟨Claims.mk u r u now now (now + tp.config.ExpirationHours * 3600),
      ?_, rfl, rfl⟩
    unfold TokenProvider.ParseToken
    rw [hp]
    simp [hu]

/-- C1, witness for the amended theorem at a concrete input. -/
theorem token_roundtrip_amended_witness :
    tpC.ValidateToken (tpC.CreateToken "alice".toList "user".toList 5) 5 = .ok () ∧
    ∃ cl, tpC.ParseToken (tpC.CreateToken "alice".toList "user".toList 5) 5 = .ok cl ∧
      cl.Username = "alice".toList ∧ cl.Role = "user".toList :=
  token_roundtrip_amended tpC "alice".toList "user".toList 5 (by decide) (by decide)

/-- C2, counterexample: a token whose header advertises HS256 (not the
HMAC-SHA-512 identifier) but is correctly HMAC-signed with the shared
secret is ACCEPTED by both `ValidateToken` and `ParseToken`. -/
theorem alg_confinement_hs256_cex :
    tokHS256.alg ≠ .HS512 ∧
    tpC.ValidateToken tokHS256 5 = .ok () ∧
    tpC.ParseToken tokHS256 5 = .ok clC := by
  decide

/-- C2, amended: the keyfunc confines the algorithm to the HMAC FAMILY,
not to HS512 alone — every token advertising a non-HMAC algorithm is
rejected by both `ValidateToken` and `ParseToken`, while a token
advertising any HMAC-family algorithm that carries a correct HMAC under
the shared secret and is within its validity window is accepted. -/
theorem alg_confinement_amended (tp : TokenProvider) (t : Token) (now : Int) :
    (t.alg.isHMAC = false →
      tp.ValidateToken t now = .error .invalidToken ∧
      tp.ParseToken t now = .error .parseFailed) ∧
    (t.alg.isHMAC = true →
      t.sig = hmacSign t.alg tp.config.SecretKey t.claims →
      now < t.claims.ExpiresAt → ¬ now < t.claims.NotBefore →
      tp.ValidateToken t now = .ok ()) := by
  constructor
  · intro hα
    have hp : parseWithClaims tp.config.SecretKey t now = .error .unverifiable := by
      unfold parseWithClaims
      rw [if_pos (by simp [hα])]
    constructor
    · unfold TokenProvider.ValidateToken; rw [hp]
    · unfold TokenProvider.ParseToken; rw [hp]
  · intro hα hsig hexp hnbf
    have hp : parseWithClaims tp.config.SecretKey t now = .ok t.claims := by
      unfold parseWithClaims
      rw [if_neg (by simp [hα]), if_neg (by simp [hsig]), if_neg (by simp [hexp]),
        if_neg hnbf]
    unfold TokenProvider.ValidateToken
    rw [hp]

/-- C2, witness for the amended theorem: an RS256 token is rejected, an
HS256 token correctly signed with the shared secret is accepted. -/
theorem alg_confinement_amended_witness :
    tpC.ValidateToken tokRS256 5 = .error .invalidToken ∧
    tpC.ValidateToken tokHS256 5 = .ok () :=
  ⟨((alg_confinement_amended tpC tokRS256 5).1 (by decide)).1,
   (alg_confinement_amended tpC tokHS256 5).2 (by decide) (by decide)
     (by decide) (by decide)⟩

/-- C3: a token created at time `T` with a configured lifetime of
`ExpirationHours ≥ 1` hours fails validation with the expired error one
second after `T + L`, and validates successfully one second before. -/
theorem expiry_window (tp : TokenProvider) (u r : GoStr) (T : Int)
    (hL : 1 ≤ tp.config.ExpirationHours) :
    tp.ValidateToken (tp.CreateToken u r T)
        (T + tp.config.ExpirationHours * 3600 + 1) = .error .expiredToken ∧
    tp.ValidateToken (tp.CreateToken u r T)
        (T + tp.config.ExpirationHours * 3600 - 1) = .ok () := by
  constructor
  · have hp := parseWithClaims_createToken_expired tp u r T
      (T + tp.config.ExpirationHours * 3600 + 1) (by omega)
    unfold TokenProvider.ValidateToken
    rw [hp]
  · have hp := parseWithClaims_createToken tp u r T
      (T + tp.config.ExpirationHours * 3600 - 1) (by omega) (by omega)
    unfold TokenProvider.ValidateToken
    rw [hp]

/-- C3, witness at a concrete provider (one-hour lifetime) and time. -/
theorem expiry_window_witness :
    tpC.ValidateToken (tpC.CreateToken "a".toList "u".toList 100)
        (100 + 1 * 3600 + 1) = .error .expiredToken ∧
    tpC.ValidateToken (tpC.CreateToken "a".toList "u".toList 100)
        (100 + 1 * 3600 - 1) = .ok () :=
  expiry_window tpC "a".toList "u".toList 100 (by decide)

/-- C4, counterexample: two requests that both fail authentication — one
with no Authorization header, one with a bearer token that fails
validation — receive DIFFERENT response bodies, so the responses are not
identical across failing requests. -/
theorem opaque_rejection_bodies_differ_cex :
    JWTAuth tpC (fun _ => none) [] Ctx.empty 0 =
      .reject 401 "Unauthorized: Invalid token format" ∧
    JWTAuth tpC (fun _ => none) "Bearer x".toList Ctx.empty 0 =
      .reject 401 "Unauthorized: Invalid or expired token" ∧
    ("Unauthorized: Invalid token format" : String) ≠
      "Unauthorized: Invalid or expired token" := by
  refine ⟨by decide, ?_, by decide⟩
  have he : extractBearerToken "Bearer x".toList = .ok "x".toList := by decide
  unfold JWTAuth
  rw [if_neg (by decide)]
  rw [he]
  rfl

/-- C4, amended: under Required mode every authentication-layer failure is
rejected with the same STATUS, 401 Unauthorized, but not with one
identical body: the body is one of three fixed messages that reveal the
failing stage (header format, validation, claim parsing). -/
theorem opaque_rejection_amended (tp : TokenProvider) (dec : GoStr → Option Token)
    (hdr : GoStr) (base : Ctx) (now : Int) :
    (∃ c, JWTAuth tp dec hdr base now = .proceed c) ∨
    JWTAuth tp dec hdr base now = .reject 401 "Unauthorized: Invalid token format" ∨
    JWTAuth tp dec hdr base now = .reject 401 "Unauthorized: Invalid or expired token" ∨
    JWTAuth tp dec hdr base now = .reject 401 "Unauthorized: Invalid token claims" := by
  unfold JWTAuth
  by_cases h0 : hdr = []
  · rw [if_pos h0]; right; left; rfl
  · rw [if_neg h0]
    split
    · right; left; rfl
    · split
      · right; right; left; rfl
      · split
        · right; right; right; rfl
        · exact .inl ⟨_, rfl⟩

/-- C5, counterexample: the request state that explicitly attaches the
empty string under both identity keys is a different state from the
absent context, yet `GetUsername` and `GetRole` read the same values on
both — the reads do NOT distinguish absence from an explicit empty value. -/
theorem absence_vs_empty_cex :
    (⟨some [], some []⟩ : Ctx) ≠ Ctx.empty ∧
    GetUsername ⟨some [], some []⟩ = GetUsername Ctx.empty ∧
    GetRole ⟨some [], some []⟩ = GetRole Ctx.empty := by
  decide

/-- C5, amended: through `GetUsername` and `GetRole` the absence of an
identity value is indistinguishable from an explicitly attached empty
string — a read coincides with the read on the absent context exactly
when the stored value is absent or the empty string. -/
theorem absence_vs_empty_amended (ctx : Ctx) :
    (GetUsername ctx = GetUsername Ctx.empty ↔
      ctx.username = none ∨ ctx.username = some []) ∧
    (GetRole ctx = GetRole Ctx.empty ↔
      ctx.role = none ∨ ctx.role = some []) := by
  obtain ⟨u, r⟩ := ctx
  constructor
  · cases u <;> simp [GetUsername, Ctx.empty]
  · cases r <;> simp [GetRole, Ctx.empty]

/-- C5, witness for the amended theorem at a concrete context. -/
theorem absence_vs_empty_amended_witness :
    GetUsername ⟨some [], none⟩ = GetUsername Ctx.empty :=
  (absence_vs_empty_amended ⟨some [], none⟩).1.mpr (Or.inr rfl)

/-- C6: `extractBearerToken` succeeds exactly on headers of the form
"Bearer" + one space + a remainder whose trim is non-empty, returning the
trimmed remainder (splitting at the first space only); and a Required-mode
request whose header is exactly "Bearer" is rejected 401 Unauthorized. -/
theorem bearer_extraction :
    (∀ s t : GoStr, extractBearerToken s = .ok t ↔
      ∃ rest, s = "Bearer".toList ++ ' ' :: rest ∧
        goTrimSpace rest ≠ [] ∧ t = goTrimSpace rest) ∧
    (∀ (tp : TokenProvider) (dec : GoStr → Option Token) (base : Ctx) (now : Int),
      JWTAuth tp dec "Bearer".toList base now =
        .reject 401 "Unauthorized: Invalid token format") := by
  refine ⟨extractBearerToken_ok, ?_⟩
  intro tp dec base now
  have he : extractBearerToken "Bearer".toList = .error () := by decide
  unfold JWTAuth
  rw [if_neg (by decide), he]

/-- C6, witness: the characterization applied at a concrete header. -/
theorem bearer_extraction_witness :
    extractBearerToken "Bearer abc".toList = .ok "abc".toList :=
  (bearer_extraction.1 "Bearer abc".toList "abc".toList).mpr
    ⟨"abc".toList, by decide, by decide, by decide⟩

/-- C7: Optional mode never writes an error response — for every request
it invokes the downstream handler; the handler sees the empty identity
context unless extraction, validation and claim parsing all succeed, in
which case it sees exactly {username, role} from the token's claims. -/
theorem optional_mode_never_rejects (tp : TokenProvider)
    (dec : GoStr → Option Token) (hdr : GoStr) (now : Int) :
    (∀ s b, OptionalJWTAuth tp dec hdr Ctx.empty now ≠ .reject s b) ∧
    (∀ c, OptionalJWTAuth tp dec hdr Ctx.empty now = .proceed c →
      c = Ctx.empty ∨
      ∃ ts cl, extractBearerToken hdr = .ok ts ∧
        validateTokenStr tp dec ts now = .ok () ∧
        parseTokenStr tp dec ts now = .ok cl ∧
        c = ⟨some cl.Username, some cl.Role⟩) ∧
    (∀ ts cl, extractBearerToken hdr = .ok ts →
      validateTokenStr tp dec ts now = .ok () →
      parseTokenStr tp dec ts now = .ok cl →
      OptionalJWTAuth tp dec hdr Ctx.empty now =
        .proceed ⟨some cl.Username, some cl.Role⟩) := by
  refine ⟨?_, ?_, ?_⟩
  · intro s b
    unfold OptionalJWTAuth
    split
    · simp
    · split
      · simp
      · split
        · simp
        · split
          · simp
          · simp
  · intro c hc
    unfold OptionalJWTAuth at hc
    split at hc
    · exact .inl (MwResult.proceed.inj hc).symm
    · split at hc
      · exact .inl (MwResult.proceed.inj hc).symm
      · split at hc
        · exact .inl (MwResult.proceed.inj hc).symm
        · split at hc
          · exact .inl (MwResult.proceed.inj hc).symm
          · rename_i x1 ts hts x2 v hv x3 cl hq
            cases v
            exact .inr ⟨ts, cl, hts, hv, hq, (MwResult.proceed.inj hc).symm⟩
  · intro ts cl hts hv hq
    have h0 : hdr ≠ [] := by
      intro h
      rw [h] at hts
      rw [show extractBearerToken [] = .error () from by decide] at hts
      exact Except.noConfusion hts
    unfold OptionalJWTAuth
    rw [if_neg h0]
    simp only [hts, hv, hq]

/-- C7, witness: a concrete request with a decodable valid token proceeds
with alice's identity attached; the theorem's hypotheses are discharged by
evaluation. -/
theorem optional_mode_never_rejects_witness :
    OptionalJWTAuth tpC decC "Bearer t".toList Ctx.empty 0 =
      .proceed ⟨some "alice".toList, some "user".toList⟩ :=
  (optional_mode_never_rejects tpC decC "Bearer t".toList 0).2.2
    "t".toList
    (Claims.mk "alice".toList "user".toList "alice".toList 0 0 3600)
    (by decide) (by decide) (by decide)

/-- C8, counterexample: a request state with an explicitly attached empty
role reaching `RequireRole("")` has the role present and equal to the
expected role, yet the gate rejects with Forbidden instead of invoking
the downstream handler. -/
theorem role_gate_empty_role_cex :
    (⟨none, some []⟩ : Ctx).role = some [] ∧
    RequireRole [] ⟨none, some []⟩ = .reject 403 "Forbidden: No role information" := by
  decide

/-- C8, amended: `RequireRole(expectedRole)` rejects with 403 Forbidden
whenever the role read from the context is empty — whether because no
identity context is present or because the attached role is the empty
string — rejects with 403 Forbidden when the read role is non-empty and
differs from expectedRole (exact string match), and otherwise invokes the
downstream handler; it never rejects with 401. -/
theorem role_gate_amended (requiredRole : GoStr) (ctx : Ctx) :
    (ctx.role = none →
      RequireRole requiredRole ctx = .reject 403 "Forbidden: No role information") ∧
    (GetRole ctx = [] →
      RequireRole requiredRole ctx = .reject 403 "Forbidden: No role information") ∧
    (GetRole ctx ≠ [] → GetRole ctx ≠ requiredRole →
      RequireRole requiredRole ctx = .reject 403 "Forbidden: Insufficient permissions") ∧
    (GetRole ctx ≠ [] → GetRole ctx = requiredRole →
      RequireRole requiredRole ctx = .proceed ctx) := by
  refine ⟨?_, ?_, ?_, ?_⟩
  · intro h
    unfold RequireRole
    rw [if_pos (by simp [GetRole, h])]
  · intro h
    unfold RequireRole
    rw [if_pos h]
  · intro h1 h2
    unfold RequireRole
    rw [if_neg h1, if_pos h2]
  · intro h1 h2
    unfold RequireRole
    rw [if_neg h1, if_neg (fun hh => hh h2)]

/-- C8, witness: the amended theorem applied to a concrete absent-role
context, a mismatching role, and a matching role. -/
theorem role_gate_amended_witness :
    RequireRole "admin".toList Ctx.empty = .reject 403 "Forbidden: No role information" ∧
    RequireRole "admin".toList ⟨some "u".toList, some "user".toList⟩ =
      .reject 403 "Forbidden: Insufficient permissions" ∧
    RequireRole "admin".toList ⟨some "u".toList, some "admin".toList⟩ =
      .proceed ⟨some "u".toList, some "admin".toList⟩ :=
  ⟨(role_gate_amended "admin".toList Ctx.empty).1 rfl,
   (role_gate_amended "admin".toList ⟨some "u".toList, some "user".toList⟩).2.2.1
     (by decide) (by decide),
   (role_gate_amended "admin".toList ⟨some "u".toList, some "admin".toList⟩).2.2.2
     (by decide) (by decide)⟩

/-- C9: `HashPassword` fails with the empty-password error exactly on the
zero-length secret and with the too-long error exactly above 72 bytes;
every accepted secret verifies against its own hash and fails against the
hash of any other secret. -/
theorem hash_verify_contract (salt : Nat) (pw : GoStr) :
    (HashPassword salt pw = .error .passwordEmpty ↔ utf8Len pw = 0) ∧
    (HashPassword salt pw = .error .passwordTooLong ↔ 72 < utf8Len pw) ∧
    (∀ h, HashPassword salt pw = .ok h → CheckPassword pw h = true) ∧
    (∀ salt2 pw2 h2, pw2 ≠ pw → HashPassword salt2 pw2 = .ok h2 →
      CheckPassword pw h2 = false) := by
  have key : ∀ (s : Nat) (p : GoStr) (h : BHash), HashPassword s p = .ok h →
      h = ⟨s, DefaultCost, p⟩ ∧ p ≠ [] ∧ ¬ 72 < utf8Len p := by
    intro s p h hh
    unfold HashPassword at hh
    by_cases h1 : p = []
    · rw [if_pos h1] at hh; exact absurd hh (by simp)
    · rw [if_neg h1] at hh
      by_cases h2 : 72 < utf8Len p
      · rw [if_pos h2] at hh; exact absurd hh (by simp)
      · rw [if_neg h2] at hh
        exact ⟨(Except.ok.inj hh).symm, h1, h2⟩
  refine ⟨?_, ?_, ?_, ?_⟩
  · rw [utf8Len_eq_zero]
    unfold HashPassword
    by_cases h1 : pw = []
    · simp [h1]
    · rw [if_neg h1]
      by_cases h2 : 72 < utf8Len pw
      · rw [if_pos h2]; simp [h1]
      · rw [if_neg h2]; simp [h1]
  · unfold HashPassword
    by_cases h1 : pw = []
    · rw [if_pos h1]
      simp [h1, utf8Len]
    · rw [if_neg h1]
      by_cases h2 : 72 < utf8Len pw
      · rw [if_pos h2]; simp [h2]
      · rw [if_neg h2]; simp [h2]
  · intro h hh
    obtain ⟨rfl, -, -⟩ := key salt pw h hh
    simp [CheckPassword, bcryptCompare, bcryptGenerate]
  · intro salt2 pw2 h2 hne hh
    obtain ⟨rfl, -, -⟩ := key salt2 pw2 h2 hh
    simp [CheckPassword, bcryptCompare, bcryptGenerate, hne]

/-- C9, witness: the contract applied at concrete secrets. -/
theorem hash_verify_contract_witness :
    HashPassword 3 [] = .error .passwordEmpty ∧
    CheckPassword "pw".toList ⟨3, DefaultCost, "pw".toList⟩ = true ∧
    CheckPassword "pw".toList ⟨4, DefaultCost, "other".toList⟩ = false :=
  ⟨(hash_verify_contract 3 []).1.mpr rfl,
   (hash_verify_contract 3 "pw".toList).2.2.1 ⟨3, DefaultCost, "pw".toList⟩ (by decide),
   (hash_verify_contract 3 "pw".toList).2.2.2 4 "other".toList
     ⟨4, DefaultCost, "other".toList⟩ (by decide) (by decide)⟩

/-- C10: `Login` returns the identical error value "invalid credentials"
both when the username lookup fails and when the user exists but the
password does not verify — the two failure causes are indistinguishable
from the returned result. -/
theorem login_no_username_oracle (tp : TokenProvider)
    (getUserByUsername : GoStr → Option User) (username password : GoStr)
    (now : Int) :
    (getUserByUsername username = none →
      Login tp getUserByUsername username password now = .error "invalid credentials") ∧
    (∀ user, getUserByUsername username = some user →
      CheckPassword password user.HashedPassword = false →
      Login tp getUserByUsername username password now = .error "invalid credentials") := by
  constructor
  · intro h
    unfold Login
    rw [h]
  · intro user h hpw
    unfold Login
    rw [h]
    simp [hpw]

/-- C10, witness: both failure causes at concrete inputs produce the same
error value. -/
theorem login_no_username_oracle_witness :
    Login tpC lookupC "nouser".toList "right".toList 0 = .error "invalid credentials" ∧
    Login tpC lookupC "u".toList "wrong".toList 0 = .error "invalid credentials" :=
  ⟨(login_no_username_oracle tpC lookupC "nouser".toList "right".toList 0).1 (by decide),
   (login_no_username_oracle tpC lookupC "u".toList "wrong".toList 0).2 userC
     (by decide) (by decide)⟩
